import Mathlib

/-!
Verification development for the dolphin-music-project-manager plugin
(`music_project_manager.go`).  Strings are modelled as `List Char`,
timestamps (`time.Time`) as integers (nanoseconds since epoch ordering),
`float64` BPM values as rationals, and the filesystem / registry sidecar
as explicit values threaded through each operation.  Every operation is a
computable Lean function translated from the Go source.
-/

namespace MPM

/-- Strings are lists of characters. -/
abbrev Str := List Char

/-- Coerce a Lean string literal to the `List Char` model. -/
def str (s : String) : Str := s.data

/-- Space or tab, the cut set of `strings.TrimLeft(line, " \t")`. -/
def isSpTab (c : Char) : Bool := c = ' ' || c = '\t'

/-- Whitespace as recognised by Go `unicode.IsSpace` (the set used by
`strings.Fields`); covers the Latin-1 and Unicode space characters. -/
def goIsSpace (c : Char) : Bool :=
  c = ' ' || c = '\t' || c = '\n' || c.toNat = 0x0b || c.toNat = 0x0c || c = '\r' ||
  c.toNat = 0x85 || c.toNat = 0xa0 || c.toNat = 0x1680 ||
  (0x2000 ≤ c.toNat && c.toNat ≤ 0x200a) || c.toNat = 0x2028 || c.toNat = 0x2029 ||
  c.toNat = 0x202f || c.toNat = 0x205f || c.toNat = 0x3000

/-- Go `strings.TrimLeft(line, " \t")`. -/
def trimL (s : Str) : Str := s.dropWhile isSpTab

/-- Go `strings.HasPrefix(s, pre)`. -/
def goStarts (pre s : Str) : Bool := pre.isPrefixOf s

/-- The literal token `"TEMPO "` (one trailing space). -/
def tempoTok : Str := str "TEMPO "

/-- A line matches the TEMPO lookup when, after stripping only leading
spaces and tabs, it begins with the literal token `TEMPO `. -/
def isTempoLine (l : Str) : Bool := goStarts tempoTok (trimL l)

/-- Accumulator loop of `fields`: `acc` holds the current word reversed. -/
def fieldsAux (acc : Str) : Str → List Str
  | [] => if acc = [] then [] else [acc.reverse]
  | c :: cs =>
    if goIsSpace c then
      if acc = [] then fieldsAux [] cs else acc.reverse :: fieldsAux [] cs
    else fieldsAux (c :: acc) cs

/-- Go `strings.Fields`: split around runs of whitespace, no empty fields. -/
def fields (s : Str) : List Str := fieldsAux [] s

/-- Go `strings.Join(parts, " ")`. -/
def joinSp : List Str → Str
  | [] => []
  | [w] => w
  | w :: ws => w ++ ' ' :: joinSp ws

/-- Go `strings.Split(s, "\n")`. -/
def splitNl : Str → List Str
  | [] => [[]]
  | c :: cs =>
    if c = '\n' then [] :: splitNl cs
    else
      match splitNl cs with
      | [] => [[c]]
      | w :: ws => (c :: w) :: ws

/-- Go `strings.Join(lines, "\n")`. -/
def joinNl : List Str → Str
  | [] => []
  | [w] => w
  | w :: ws => w ++ '\n' :: joinNl ws

/-- ASCII lower-casing of one character (model of `unicode.ToLower` for the
ASCII range; other characters are left unchanged). -/
def lowerChar (c : Char) : Char :=
  if 'A' ≤ c ∧ c ≤ 'Z' then Char.ofNat (c.toNat + 32) else c

/-- Go `strings.ToLower`. -/
def lowerStr (s : Str) : Str := s.map lowerChar

/-- Go `strings.Contains(s, sub)`. -/
def goContains (s sub : Str) : Bool := decide (sub <:+: s)

/-- Go `strings.EqualFold(a, b)` (ASCII folding model). -/
def goEqualFold (a b : Str) : Bool := lowerStr a = lowerStr b

/-- The forbidden project-name characters of the source. -/
def forbiddenChars : Str := str "<>:\"/\\|?*"

/-- Go `strings.ContainsAny(s, forbiddenChars)`. -/
def containsForbidden (s : Str) : Bool := s.any (fun c => forbiddenChars.contains c)

/-- Go `strconv.Itoa` of the patched BPM (integer formatting, no decimals). -/
def itoa (n : Int) : Str := (toString n).data

/-- Decimal digit test. -/
def isDigit (c : Char) : Bool := '0' ≤ c && c ≤ '9'

/-- Value of a digit string. -/
def digitsToNat (ds : Str) : Nat := ds.foldl (fun n c => 10 * n + (c.toNat - 48)) 0

/-- Nonempty all-digit string parse. -/
def parseUDigits (s : Str) : Option Nat :=
  if s ≠ [] ∧ s.all isDigit then some (digitsToNat s) else none

/-- Model of Go `strconv.ParseFloat(s, 64)` on its decimal grammar:
optional sign, digits with at most one dot and at least one digit, and an
optional `e`/`E` exponent.  The exotic inputs Go additionally accepts
(hexadecimal floats, `Inf`, `NaN`, digit-group underscores) are not in the
model; values are exact rationals rather than binary floats. -/
def parseGoFloat (s : Str) : Option ℚ :=
  match s with
  | [] => none
  | _ =>
    let sr : ℚ × Str :=
      match s with
      | '+' :: r => (1, r)
      | '-' :: r => (-1, r)
      | r => (1, r)
    let mant := sr.2.takeWhile (fun c => !(c = 'e' || c = 'E'))
    let expRest := sr.2.dropWhile (fun c => !(c = 'e' || c = 'E'))
    let ip := mant.takeWhile (fun c => c ≠ '.')
    let dotRest := mant.dropWhile (fun c => c ≠ '.')
    let fp : Str := match dotRest with | [] => [] | _ :: t => t
    if ip.all isDigit ∧ fp.all isDigit ∧ ip ++ fp ≠ [] then
      let base : ℚ := sr.1 * (digitsToNat (ip ++ fp) : ℚ) / (10 : ℚ) ^ fp.length
      match expRest with
      | [] => some base
      | _ :: es =>
        let esr : Int × Str :=
          match es with
          | '+' :: r => (1, r)
          | '-' :: r => (-1, r)
          | r => (1, r)
        match parseUDigits esr.2 with
        | some e => some (base * (10 : ℚ) ^ (esr.1 * (e : Int)))
        | none => none
    else none

/-- Go `int(x)` conversion of a float: truncation toward zero. -/
def truncQ (q : ℚ) : Int := if 0 ≤ q then ⌊q⌋ else ⌈q⌉

/-- Model of `filepath.Join(a, b)` (no cleaning of redundant separators,
which never arise in the paths the operations build). -/
def pathJoin (a b : Str) : Str := a ++ '/' :: b

/-- Model of `filepath.Base`: the part after the last separator. -/
def pathBase (p : Str) : Str := (p.reverse.takeWhile (fun c => c ≠ '/')).reverse

/-- Model of `filepath.Dir`: everything before the last separator. -/
def pathDir (p : Str) : Str :=
  let base := p.reverse.takeWhile (fun c => c ≠ '/')
  match p.reverse.drop base.length with
  | '/' :: rest => rest.reverse
  | _ => str "."

/-- Model of `filepath.Ext`: the suffix of the base name starting at its
final dot, empty when the base name has no dot. -/
def pathExt (p : Str) : Str :=
  let tail := p.reverse.takeWhile (fun c => !(c = '.' || c = '/'))
  match p.reverse.drop tail.length with
  | '.' :: _ => '.' :: tail.reverse
  | _ => []

/-- Go `strings.TrimSuffix`. -/
def trimSuffix (s suf : Str) : Str :=
  if suf.isSuffixOf s then s.take (s.length - suf.length) else s

/-! Data model of the plugin. -/

/-- The plugin configuration (`Settings` struct of the source). -/
structure Settings where
  defaultTemplate : Str
  projectDir : Str
  templateDir : Str
deriving DecidableEq, Repr

/-- One registry entry (`Project` struct): `lastModified` carries the
`time.Time` as an integer timestamp, `bpm` the `float64` as a rational. -/
structure Project where
  name : Str
  path : Str
  lastModified : Int
  size : Int
  bpm : ℚ
deriving DecidableEq, Repr

/-- Output of the query operations: either a plain message string or the
structured table result (`pluginapi.NewTableResult`); the rows keep the
full `Project` records whose name/path/date/bpm columns are displayed. -/
inductive OpOutput
  | msg (s : Str)
  | table (title : Str) (rows : List Project)
deriving DecidableEq, Repr

/-- Configuration guidance message shared by scan / list / filter / rename. -/
def configureMsg : Str :=
  str "Music Project Manager needs to be configured. Please set project_dir in the application settings."

/-- Configuration guidance message of create_project. -/
def configureCreateMsg : Str :=
  str "Music Project Manager needs to be configured. Please set project_dir and template_dir in the application settings."

/-- Message returned when `projects.json` is missing. -/
def noSidecarMsg (pd : Str) : Str :=
  str "No projects.json file found at " ++ pathJoin pd (str "projects.json") ++
    str ". Run 'scan' operation first to generate the projects list."

/-- Message returned when the registry parses to an empty array. -/
def emptyRegistryMsg (pd : Str) : Str :=
  str "No projects found in " ++ pathJoin pd (str "projects.json")

/-- Message returned when every registry entry is filtered out. -/
def noMatchMsg : Str := str "No projects match the filter criteria"

/-! Operations on the project file text. -/

/-- Loop body of `updateProjectBPM` on one matched line: preserve the
leading whitespace, split the trimmed remainder into fields, replace the
second field by the formatted integer BPM, rejoin with single spaces. -/
def patchTempoLine (l : Str) (bpm : Int) : Str :=
  let trimmed := trimL l
  let indent := l.take (l.length - trimmed.length)
  let parts := fields trimmed
  if 2 ≤ parts.length then indent ++ joinSp (parts.set 1 (itoa bpm)) else l

/-- The line loop of `updateProjectBPM`: the first line whose trimmed
content starts with `TEMPO ` is patched and the loop breaks; every other
line is kept verbatim. -/
def updateBPMLines (bpm : Int) : List Str → List Str
  | [] => []
  | l :: ls =>
    if isTempoLine l then patchTempoLine l bpm :: ls
    else l :: updateBPMLines bpm ls

/-- Whole-file behaviour of `updateProjectBPM`: split the content on
newlines, run the loop, join back with newlines and write the result. -/
def updateProjectBPM (content : Str) (bpm : Int) : Str :=
  joinNl (updateBPMLines bpm (splitNl content))

/-- Per-line step of `extractBPMFromRPP`: a line whose trimmed content
starts with `TEMPO ` and splits into at least two fields decides the scan
(parsed value, or the parse-failure error); any other line lets the scan
continue (`none`). -/
def tempoLineResult (l : Str) : Option (Except Str ℚ) :=
  let trimmed := trimL l
  if goStarts tempoTok trimmed then
    let parts := fields trimmed
    if 2 ≤ parts.length then
      match parseGoFloat (parts.getD 1 []) with
      | some q => some (.ok q)
      | none => some (.error (str "failed to parse BPM value"))
    else none
  else none

/-- The scanning loop of `extractBPMFromRPP`: at most 100 lines are
examined (`lineCount < maxLines`); the first deciding line returns;
running out of lines or of budget yields 0. -/
def extractBPMAux (count : Nat) : List Str → Except Str ℚ
  | [] => .ok 0
  | l :: ls =>
    if count < 100 then
      match tempoLineResult l with
      | some r => r
      | none => extractBPMAux (count + 1) ls
    else .ok 0

/-- `extractBPMFromRPP` on the file's lines. -/
def extractBPMFromRPP (lines : List Str) : Except Str ℚ := extractBPMAux 0 lines

/-- The BPM a scan records for a file: the extracted value, or 0 when
`extractBPMFromRPP` reports an error (the scan logs and continues). -/
def scanRecordBPM (lines : List Str) : ℚ :=
  match extractBPMFromRPP lines with
  | .ok b => b
  | .error _ => 0

/-- One file met by the scan walk: its path, text lines and stat data. -/
structure ScanFile where
  path : Str
  lines : List Str
  modTime : Int
  size : Int
deriving DecidableEq, Repr

/-- The collection loop of the background scan: every file whose extension
lower-cases to `.rpp` becomes a registry entry; BPM extraction failure
records 0 instead of aborting the walk. -/
def scanCollect (files : List ScanFile) : List Project :=
  files.filterMap fun f =>
    if lowerStr (pathExt f.path) = str ".rpp" then
      some { name := trimSuffix (pathBase f.path) (pathExt f.path)
             path := f.path
             lastModified := f.modTime
             size := f.size
             bpm := scanRecordBPM f.lines }
    else none

/-- Synchronous part of `scanProjects` (the acknowledgement path);
`dirExists` models the `os.Stat(projectDir)` check. -/
def scanProjects (settingsR : Except Str Settings) (dirExists : Bool) :
    Except Str Str :=
  match settingsR with
  | .error e => .error (str "failed to load settings: " ++ e)
  | .ok s =>
    if s.projectDir = [] then .ok configureMsg
    else if dirExists then
      .ok (str "Scanning " ++ s.projectDir ++
        str " in the background. Use 'list_projects' to see results once complete.")
    else .ok (str "Project directory does not exist: " ++ s.projectDir)

/-! Registry query layer. -/

/-- Insertion step of the by-last-modified descending sort. -/
def insertByModified (p : Project) : List Project → List Project
  | [] => [p]
  | q :: qs =>
    if q.lastModified ≤ p.lastModified then p :: q :: qs
    else q :: insertByModified p qs

/-- Model of `sort.Slice(projects, less := LastModified.After)`: a sort by
last-modified descending.  The source's sort is unstable, so the order
among equal timestamps is unspecified there; the model fixes one order,
which no claim depends on. -/
def sortByModified (l : List Project) : List Project := l.foldr insertByModified []

/-- The shared tail of `listProjects` and `filterProject`: sort by
last-modified descending and keep at most the first 30 entries. -/
def recentEntries (projects : List Project) : List Project :=
  (sortByModified projects).take 30

/-- `listProjects`, with the settings-load result and the parsed sidecar
(`none` models a missing `projects.json`) passed explicitly. -/
def listProjects (settingsR : Except Str Settings)
    (sidecar : Option (List Project)) : Except Str OpOutput :=
  match settingsR with
  | .error e => .error (str "failed to load settings: " ++ e)
  | .ok s =>
    if s.projectDir = [] then .ok (.msg configureMsg)
    else
      match sidecar with
      | none => .ok (.msg (noSidecarMsg s.projectDir))
      | some projects =>
        if projects = [] then .ok (.msg (emptyRegistryMsg s.projectDir))
        else .ok (.table (str "Recent Music Projects") (recentEntries projects))

/-- The per-entry filter of `filterProject`, mirroring its chain of skip
conditions. -/
def matchesFilter (nameFilter : Str) (exactBPM minBPM maxBPM : Int)
    (p : Project) : Bool :=
  if nameFilter ≠ [] ∧ ¬ goContains (lowerStr p.name) (lowerStr nameFilter) then false
  else if 0 < exactBPM ∧ truncQ p.bpm ≠ exactBPM then false
  else if 0 < minBPM ∧ p.bpm < (minBPM : ℚ) then false
  else if 0 < maxBPM ∧ (maxBPM : ℚ) < p.bpm then false
  else true

/-- `filterProject`, with settings and sidecar passed explicitly. -/
def filterProject (settingsR : Except Str Settings)
    (sidecar : Option (List Project)) (nameFilter : Str)
    (exactBPM minBPM maxBPM : Int) : Except Str OpOutput :=
  match settingsR with
  | .error e => .error (str "failed to load settings: " ++ e)
  | .ok s =>
    if s.projectDir = [] then .ok (.msg configureMsg)
    else
      match sidecar with
      | none => .ok (.msg (noSidecarMsg s.projectDir))
      | some projects =>
        if projects = [] then .ok (.msg (emptyRegistryMsg s.projectDir))
        else
          let filtered := projects.filter (matchesFilter nameFilter exactBPM minBPM maxBPM)
          if filtered = [] then .ok (.msg noMatchMsg)
          else .ok (.table (str "Filtered Music Projects") (recentEntries filtered))

/-! Rename operation. -/

/-- The linear scan of `renameProject` for the entry to rename: the first
project whose name case-insensitively equals the search string or whose
lower-cased name contains the lower-cased search string, with its index. -/
def findProjectToRename (oldName : Str) : Nat → List Project → Option (Nat × Project)
  | _, [] => none
  | i, p :: ps =>
    if goEqualFold p.name oldName ||
        goContains (lowerStr p.name) (lowerStr oldName) then some (i, p)
    else findProjectToRename oldName (i + 1) ps

/-- The filesystem is modelled as the set of existing paths; `os.Rename`
moves one path and fails when the source does not exist (metadata and the
recursive move of a folder's contents are outside the model). -/
def osRename (fs : List Str) (src dst : Str) : Option (List Str) :=
  if src ∈ fs then some (dst :: fs.erase src) else none

/-- Result of the rename model: final filesystem, final sidecar content,
and the returned message-or-error. -/
structure RenameOut where
  fs : List Str
  sidecar : Option (List Project)
  result : Except Str Str
deriving Repr

/-- `renameProject`, mirroring the source's step order: input validation,
settings load, configuration guard, sidecar read, linear match, the
target-folder existence check, folder rename, project-file rename with a
best-effort rollback, and the sidecar rewrite.  The post-rename re-stat of
modification time and size is outside the path-set filesystem model. -/
def renameProject (fs : List Str) (settingsR : Except Str Settings)
    (sidecar : Option (List Project)) (oldName newName : Str) : RenameOut :=
  if oldName = [] then ⟨fs, sidecar, .error (str "old project name is required")⟩
  else if newName = [] then ⟨fs, sidecar, .error (str "new project name is required")⟩
  else if containsForbidden newName then
    ⟨fs, sidecar, .error (str "new project name contains invalid characters")⟩
  else
    match settingsR with
    | .error e => ⟨fs, sidecar, .error (str "failed to load settings: " ++ e)⟩
    | .ok s =>
      if s.projectDir = [] then ⟨fs, sidecar, .ok configureMsg⟩
      else
        match sidecar with
        | none => ⟨fs, sidecar, .error (noSidecarMsg s.projectDir)⟩
        | some projects =>
          match findProjectToRename oldName 0 projects with
          | none => ⟨fs, sidecar, .error (str "project not found")⟩
          | some (idx, proj) =>
            let oldProjectPath := proj.path
            let oldFolderPath := pathDir oldProjectPath
            let oldRPPName := pathBase oldProjectPath
            let newFolderPath := pathJoin (pathDir oldFolderPath) newName
            let newRPPPath := pathJoin newFolderPath (newName ++ str ".RPP")
            if newFolderPath ∈ fs then
              ⟨fs, sidecar, .error (str "a project folder with the new name already exists")⟩
            else
              match osRename fs oldFolderPath newFolderPath with
              | none => ⟨fs, sidecar, .error (str "failed to rename project folder")⟩
              | some fs1 =>
                match osRename fs1 (pathJoin newFolderPath oldRPPName) newRPPPath with
                | none =>
                  ⟨(osRename fs1 newFolderPath oldFolderPath).getD fs1, sidecar,
                    .error (str "failed to rename RPP file")⟩
                | some fs2 =>
                  ⟨fs2,
                    some (projects.set idx { proj with name := newName, path := newRPPPath }),
                    .ok (str "Successfully renamed project")⟩

/-! Create operation. -/

/-- Input validation of `createProject` (`validateCreateProject`). -/
def validateCreateProject (name : Str) (bpm : Int) : Option Str :=
  if name = [] then some (str "project name is required and cannot be empty")
  else if containsForbidden name then
    some (str "project name contains invalid characters")
  else if bpm ≠ 0 ∧ (bpm < 30 ∨ 300 < bpm) then
    some (str "BPM must be between 30 and 300")
  else none

/-- One observable I/O step of `createProject`, in the order the source
performs them. -/
inductive Effect
  | loadSettings
  | mkdirAll (p : Str)
  | readFile (p : Str)
  | writeFile (p : Str) (content : Str)
  | launchReaper (p : Str)
  | appendRegistry (p : Str)
deriving DecidableEq, Repr

/-- Environment of one `createProject` call: what the settings load would
return and the template file's content (`none` models a missing
`default.RPP`). -/
structure CreateEnv where
  settingsR : Except Str Settings
  template : Option Str
deriving Repr

/-- Result of the create model: the I/O effects in order, the returned
message-or-error, and the final content of the created project file
(`none` when no project file was written). -/
structure CreateOut where
  effects : List Effect
  result : Except Str Str
  written : Option Str
deriving Repr

/-- Success message of `createProject` without the BPM suffix. -/
def createMsg (dest : Str) : Str := str "Created and launched project: " ++ dest

/-- The BPM suffix appended to the success message when `bpm > 0`. -/
def bpmSuffix (bpm : Int) : Str := str " (BPM " ++ itoa bpm ++ str ")"

/-- `createProject`: validation, settings load, configuration guard,
directory creation, template read, copy, optional BPM patch, launch, and
registry append.  Directory creation, file writes, the launch and the
registry append (whose failure the source only logs) are modelled as
succeeding; the template read fails exactly when the template is absent. -/
def createProject (env : CreateEnv) (name : Str) (bpm : Int) : CreateOut :=
  match validateCreateProject name bpm with
  | some e => ⟨[], .error e, none⟩
  | none =>
    match env.settingsR with
    | .error e => ⟨[.loadSettings], .error (str "failed to load settings: " ++ e), none⟩
    | .ok s =>
      if s.projectDir = [] ∨ s.templateDir = [] then
        ⟨[.loadSettings], .ok configureCreateMsg, none⟩
      else
        let defaultTemplate := pathJoin s.templateDir (str "default.RPP")
        let projectDir := pathJoin s.projectDir name
        let dest := pathJoin projectDir (name ++ str ".RPP")
        match env.template with
        | none =>
          ⟨[.loadSettings, .mkdirAll projectDir, .readFile defaultTemplate],
            .error (str "template file not found"), none⟩
        | some data =>
          if 0 < bpm then
            let patched := updateProjectBPM data bpm
            ⟨[.loadSettings, .mkdirAll projectDir, .readFile defaultTemplate,
                .writeFile dest data, .readFile dest, .writeFile dest patched,
                .launchReaper dest, .appendRegistry dest],
              .ok (createMsg dest ++ bpmSuffix bpm), some patched⟩
          else
            ⟨[.loadSettings, .mkdirAll projectDir, .readFile defaultTemplate,
                .writeFile dest data, .launchReaper dest, .appendRegistry dest],
              .ok (createMsg dest), some data⟩

/-! Sortedness predicate and concrete demonstration data. -/

/-- The ordering the query layer establishes: every entry's last-modified
time bounds the later entries' from above (descending). -/
def SortedDesc (l : List Project) : Prop :=
  l.Pairwise (fun a b => b.lastModified ≤ a.lastModified)

/-- Demonstration settings with both directories configured. -/
def demoSettings : Settings :=
  ⟨str "/t/default.RPP", str "/music", str "/t"⟩

/-- Demonstration registry entry. -/
def demoA : Project := ⟨str "alpha", str "/music/alpha/alpha.RPP", 50, 10, 120⟩

/-- Second demonstration registry entry, more recent than `demoA`. -/
def demoB : Project := ⟨str "beta", str "/music/beta/beta.RPP", 90, 10, 140⟩

/-- Demonstration template content containing a TEMPO line. -/
def demoTemplate : Str := str "<REAPER_PROJECT\n  TEMPO 120.0 4 4\n>"

/-- Demonstration environment for `createProject`. -/
def demoEnv : CreateEnv := ⟨.ok demoSettings, some demoTemplate⟩

/-- Settings with an empty project directory (unconfigured plugin). -/
def demoUnconfigured : Settings := ⟨[], [], []⟩

/-- Unconfigured environment for `createProject`. -/
def demoEnvUnconfigured : CreateEnv := ⟨.ok demoUnconfigured, none⟩

/-- First entry of the rename-matching registry: its name merely contains
the search string `rock` case-insensitively. -/
def c4First : Project :=
  ⟨str "Rock Ballad", str "/music/Rock Ballad/Rock Ballad.RPP", 10, 5, 120⟩

/-- Second entry of the rename-matching registry: its name equals the
search string `rock` case-insensitively. -/
def c4Second : Project := ⟨str "rock", str "/music/rock/rock.RPP", 20, 5, 100⟩

/-- Registry in which the substring match precedes the exact match. -/
def c4Registry : List Project := [c4First, c4Second]

/-- Project for the rename-collision scenario. -/
def c5Proj : Project := ⟨str "old", str "/music/old/old.RPP", 30, 7, 100⟩

/-- Filesystem for the rename-collision scenario: the target folder
`/music/new` already exists. -/
def c5Fs : List Str :=
  [str "/music/old", str "/music/old/old.RPP", str "/music/new"]

/-! Helper lemmas. -/

theorem splitNl_ne_nil (s : Str) : splitNl s ≠ [] := by
  cases s with
  | nil => simp [splitNl]
  | cons c cs =>
    by_cases h : c = '\n'
    · simp [splitNl, h]
    · simp only [splitNl, h, if_false]
      cases hs : splitNl cs <;> simp

theorem joinNl_splitNl (s : Str) : joinNl (splitNl s) = s := by
  induction s with
  | nil => simp [splitNl, joinNl]
  | cons c cs ih =>
    by_cases h : c = '\n'
    · subst h
      simp only [splitNl, if_pos rfl]
      cases hs : splitNl cs with
      | nil => exact absurd hs (splitNl_ne_nil cs)
      | cons w ws =>
        rw [hs] at ih
        simp only [joinNl, List.nil_append]
        rw [ih]
    · simp only [splitNl, h, if_false]
      cases hs : splitNl cs with
      | nil => exact absurd hs (splitNl_ne_nil cs)
      | cons w ws =>
        rw [hs] at ih
        cases ws with
        | nil => simp only [joinNl] at ih ⊢; rw [ih]
        | cons w2 ws2 => simp only [joinNl] at ih ⊢; rw [List.cons_append, ih]

theorem take_indent (l : Str) :
    l.take (l.length - (trimL l).length) = l.takeWhile isSpTab := by
  have h := List.takeWhile_append_dropWhile isSpTab l
  have hlen : l.length - (trimL l).length = (l.takeWhile isSpTab).length := by
    conv_lhs => rw [← h, List.length_append]
    simp [trimL]
  rw [hlen]
  nth_rewrite 2 [← h]
  exact List.take_left _ _

theorem updateBPMLines_of_no_tempo {bpm : Int} {ls : List Str}
    (h : ∀ l ∈ ls, isTempoLine l = false) : updateBPMLines bpm ls = ls := by
  induction ls with
  | nil => rfl
  | cons l ls ih =>
    have hl : isTempoLine l = false := h l (List.mem_cons_self l ls)
    simp only [updateBPMLines, hl, Bool.false_eq_true, if_false, List.cons.injEq,
      true_and]
    exact ih fun x hx => h x (List.mem_cons_of_mem l hx)

theorem mem_insertByModified {a p : Project} {l : List Project} :
    a ∈ insertByModified p l ↔ a = p ∨ a ∈ l := by
  induction l with
  | nil => simp [insertByModified]
  | cons q qs ih =>
    by_cases h : q.lastModified ≤ p.lastModified
    · simp [insertByModified, h]
    · simp only [insertByModified, h, if_false, List.mem_cons, ih]
      tauto

theorem sortedDesc_insertByModified {p : Project} {l : List Project}
    (h : SortedDesc l) : SortedDesc (insertByModified p l) := by
  induction l with
  | nil => simp [insertByModified, SortedDesc]
  | cons q qs ih =>
    obtain ⟨hq, hqs⟩ := List.pairwise_cons.mp h
    by_cases hle : q.lastModified ≤ p.lastModified
    · simp only [insertByModified, hle, if_pos]
      refine List.pairwise_cons.mpr ⟨?_, h⟩
      intro x hx
      rcases List.mem_cons.mp hx with rfl | hx
      · exact hle
      · exact le_trans (hq x hx) hle
    · simp only [insertByModified, hle, if_false]
      refine List.pairwise_cons.mpr ⟨?_, ih hqs⟩
      intro x hx
      rcases mem_insertByModified.mp hx with rfl | hx
      · exact le_of_not_le hle
      · exact hq x hx

theorem sortedDesc_sortByModified (l : List Project) :
    SortedDesc (sortByModified l) := by
  induction l with
  | nil => simp [sortByModified, SortedDesc]
  | cons p ps ih => exact sortedDesc_insertByModified ih

theorem mem_sortByModified {a : Project} {l : List Project} :
    a ∈ sortByModified l ↔ a ∈ l := by
  induction l with
  | nil => simp [sortByModified]
  | cons p ps ih =>
    simp only [sortByModified, List.foldr_cons, List.mem_cons]
    rw [show List.foldr insertByModified [] ps = sortByModified ps from rfl] at *
    rw [mem_insertByModified, ih]

theorem length_recentEntries_le (ps : List Project) :
    (recentEntries ps).length ≤ 30 := by
  simp only [recentEntries, List.length_take]
  omega

theorem sortedDesc_recentEntries (ps : List Project) :
    SortedDesc (recentEntries ps) :=
  List.Pairwise.sublist (List.take_sublist _ _) (sortedDesc_sortByModified ps)

theorem mem_recentEntries {p : Project} {ps : List Project}
    (h : p ∈ recentEntries ps) : p ∈ ps :=
  mem_sortByModified.mp (List.mem_of_mem_take h)

theorem tempoLineResult_of_not_tempo {l : Str} (h : isTempoLine l = false) :
    tempoLineResult l = none := by
  simp only [tempoLineResult]
  simp only [isTempoLine] at h
  simp [h]

theorem extractBPMAux_take (lines : List Str) :
    ∀ c, extractBPMAux c lines = extractBPMAux c (lines.take (100 - c)) := by
  induction lines with
  | nil => intro c; simp
  | cons l ls ih =>
    intro c
    by_cases hc : c < 100
    · have h100 : 100 - c = (100 - (c + 1)) + 1 := by omega
      rw [h100, List.take_succ_cons]
      simp only [extractBPMAux, hc, if_pos]
      rw [ih (c + 1)]
    · have h100 : 100 - c = 0 := by omega
      rw [h100, List.take_zero]
      simp [extractBPMAux, hc]

theorem extractBPMAux_of_no_tempo (lines : List Str) :
    ∀ c, (∀ l ∈ lines.take (100 - c), isTempoLine l = false) →
      extractBPMAux c lines = .ok 0 := by
  induction lines with
  | nil => intro c _; rfl
  | cons l ls ih =>
    intro c h
    by_cases hc : c < 100
    · have h100 : 100 - c = (100 - (c + 1)) + 1 := by omega
      rw [h100, List.take_succ_cons] at h
      have hl : isTempoLine l = false := h l (List.mem_cons_self _ _)
      simp only [extractBPMAux, hc, if_pos, tempoLineResult_of_not_tempo hl]
      exact ih (c + 1) fun x hx => h x (List.mem_cons_of_mem l hx)
    · simp [extractBPMAux, hc]

/-! Claim theorems. -/

/-- C1: the BPM write-path patch applied by create_project when bpm > 0
scans the lines in order for the first line whose content, after stripping
only leading spaces and tabs, begins with the literal token `TEMPO `; it
preserves that line's leading whitespace verbatim, replaces the second
whitespace-delimited field with the integer bpm, rejoins the fields with
single spaces and touches no later TEMPO line; when no such line exists
the content is written back unchanged; and the template line
`  TEMPO 120.0 4 4` becomes `  TEMPO 140 4 4` for bpm = 140. -/
theorem tempo_write_patch_spec :
    (∀ (content : Str) (bpm : Int),
      (∀ l ∈ splitNl content, isTempoLine l = false) →
      updateProjectBPM content bpm = content) ∧
    (∀ (before : List Str) (l : Str) (after : List Str) (bpm : Int),
      (∀ b ∈ before, isTempoLine b = false) → isTempoLine l = true →
      2 ≤ (fields (trimL l)).length →
      updateBPMLines bpm (before ++ l :: after) =
        before ++ (l.takeWhile isSpTab ++
          joinSp ((fields (trimL l)).set 1 (itoa bpm))) :: after) ∧
    (∀ (env : CreateEnv) (name : Str) (bpm : Int) (s : Settings) (data : Str),
      validateCreateProject name bpm = none →
      env.settingsR = .ok s → s.projectDir ≠ [] → s.templateDir ≠ [] →
      env.template = some data → 0 < bpm →
      (createProject env name bpm).written = some (updateProjectBPM data bpm)) ∧
    updateProjectBPM (str "  TEMPO 120.0 4 4") 140 = str "  TEMPO 140 4 4" := by
  refine ⟨?_, ?_, ?_, by decide⟩
  · intro content bpm h
    simp only [updateProjectBPM, updateBPMLines_of_no_tempo h, joinNl_splitNl]
  · intro before l after bpm hb hl hf
    induction before with
    | nil =>
      simp only [List.nil_append, updateBPMLines, hl, if_pos]
      simp only [patchTempoLine, take_indent, hf, if_pos]
    | cons b bs ih =>
      have hbf : isTempoLine b = false := hb b (List.mem_cons_self _ _)
      simp only [List.cons_append, updateBPMLines, hbf, Bool.false_eq_true,
        if_false, List.cons.injEq, true_and]
      exact ih fun x hx => hb x (List.mem_cons_of_mem b hx)
  · intro env name bpm s data hv hs hpd htd ht hbpm
    simp [createProject, hv, hs, ht, hpd, htd, hbpm]

/-- Witness of C1 at concrete inputs: an untouched no-TEMPO file, a patch
inside surrounding lines (the later TEMPO line untouched), and the
create-path application of the patch. -/
theorem tempo_write_patch_spec_witness :
    updateProjectBPM (str "abc\ndef") 140 = str "abc\ndef" ∧
    updateBPMLines 140 ([str "x"] ++ str "  TEMPO 120.0 4 4" :: [str "  TEMPO 90 1 1"]) =
      [str "x"] ++ ((str "  TEMPO 120.0 4 4").takeWhile isSpTab ++
        joinSp ((fields (trimL (str "  TEMPO 120.0 4 4"))).set 1 (itoa 140))) ::
        [str "  TEMPO 90 1 1"] ∧
    (createProject demoEnv (str "song") 140).written =
      some (updateProjectBPM demoTemplate 140) :=
  ⟨tempo_write_patch_spec.1 (str "abc\ndef") 140 (by decide),
   tempo_write_patch_spec.2.1 [str "x"] (str "  TEMPO 120.0 4 4")
     [str "  TEMPO 90 1 1"] 140 (by decide) (by decide) (by decide),
   tempo_write_patch_spec.2.2.1 demoEnv (str "song") 140 demoSettings demoTemplate
     (by decide) rfl (by decide) (by decide) rfl (by decide)⟩

/-- C2: for every registry content, list_projects and filter_project each
return at most 30 entries, and the returned entries are sorted by
last-modified descending. -/
theorem query_cap_and_sort
    (settingsR : Except Str Settings) (sidecar : Option (List Project))
    (nameFilter : Str) (exactBPM minBPM maxBPM : Int)
    (t1 t2 : Str) (rows1 rows2 : List Project) :
    (listProjects settingsR sidecar = .ok (.table t1 rows1) →
      rows1.length ≤ 30 ∧ SortedDesc rows1) ∧
    (filterProject settingsR sidecar nameFilter exactBPM minBPM maxBPM =
        .ok (.table t2 rows2) →
      rows2.length ≤ 30 ∧ SortedDesc rows2) := by
  constructor
  · intro h
    rcases settingsR with e | s
    · simp [listProjects] at h
    · simp only [listProjects] at h
      by_cases hpd : s.projectDir = []
      · simp [hpd] at h
      · rcases sidecar with _ | ps
        · simp [hpd] at h
        · by_cases hps : ps = []
          · simp [hpd, hps] at h
          · simp only [hpd, hps, if_false, Except.ok.injEq, OpOutput.table.injEq] at h
            obtain ⟨-, hr⟩ := h
            rw [← hr]
            exact ⟨length_recentEntries_le ps, sortedDesc_recentEntries ps⟩
  · intro h
    rcases settingsR with e | s
    · simp [filterProject] at h
    · simp only [filterProject] at h
      by_cases hpd : s.projectDir = []
      · simp [hpd] at h
      · rcases sidecar with _ | ps
        · simp [hpd] at h
        · by_cases hps : ps = []
          · simp [hpd, hps] at h
          · by_cases hfil : ps.filter (matchesFilter nameFilter exactBPM minBPM maxBPM) = []
            · simp [hpd, hps, hfil] at h
            · simp only [hpd, hps, hfil, if_false, Except.ok.injEq,
                OpOutput.table.injEq] at h
              obtain ⟨-, hr⟩ := h
              rw [← hr]
              exact ⟨length_recentEntries_le _, sortedDesc_recentEntries _⟩

/-- Witness of C2 on a concrete two-entry registry. -/
theorem query_cap_and_sort_witness :
    ([demoB, demoA].length ≤ 30 ∧ SortedDesc [demoB, demoA]) ∧
    ([demoB].length ≤ 30 ∧ SortedDesc [demoB]) := by
  constructor
  · exact (query_cap_and_sort (.ok demoSettings) (some [demoA, demoB])
      [] 0 0 0 (str "Recent Music Projects") (str "Filtered Music Projects")
      [demoB, demoA] [demoB]).1 (by rfl)
  · exact (query_cap_and_sort (.ok demoSettings) (some [demoA, demoB])
      (str "beta") 0 0 0 (str "Recent Music Projects") (str "Filtered Music Projects")
      [demoB, demoA] [demoB]).2 (by rfl)

/-- C3: filter_project keeps exactly the entries satisfying the
conjunction of the provided filters (case-insensitive substring on the
name when non-empty, truncated-BPM equality when exact_bpm > 0, inclusive
bounds when min_bpm > 0 and max_bpm > 0), and when zero entries satisfy
the conjunction it returns the explicit no-matches message with a nil
error. -/
theorem filter_conjunction_and_no_match
    (nameFilter : Str) (exactBPM minBPM maxBPM : Int) :
    (∀ p : Project, matchesFilter nameFilter exactBPM minBPM maxBPM p = true ↔
      ((nameFilter = [] ∨ goContains (lowerStr p.name) (lowerStr nameFilter) = true) ∧
       (0 < exactBPM → truncQ p.bpm = exactBPM) ∧
       (0 < minBPM → (minBPM : ℚ) ≤ p.bpm) ∧
       (0 < maxBPM → p.bpm ≤ (maxBPM : ℚ)))) ∧
    (∀ (s : Settings) (projects : List Project),
      s.projectDir ≠ [] → projects ≠ [] →
      projects.filter (matchesFilter nameFilter exactBPM minBPM maxBPM) = [] →
      filterProject (.ok s) (some projects) nameFilter exactBPM minBPM maxBPM =
        .ok (.msg noMatchMsg)) := by
  constructor
  · intro p
    simp only [matchesFilter]
    split_ifs with h1 h2 h3 h4
    · simp only [Bool.false_eq_true, false_iff]
      rintro ⟨hc1, -, -, -⟩
      obtain ⟨hne, hnc⟩ := h1
      rcases hc1 with h | h
      · exact hne h
      · exact hnc h
    · simp only [Bool.false_eq_true, false_iff]
      rintro ⟨-, hc2, -, -⟩
      exact h2.2 (hc2 h2.1)
    · simp only [Bool.false_eq_true, false_iff]
      rintro ⟨-, -, hc3, -⟩
      exact absurd (hc3 h3.1) (not_le.mpr h3.2)
    · simp only [Bool.false_eq_true, false_iff]
      rintro ⟨-, -, -, hc4⟩
      exact absurd (hc4 h4.1) (not_le.mpr h4.2)
    · simp only [true_iff]
      push_neg at h1 h2 h3 h4
      refine ⟨?_, h2, ?_, ?_⟩
      · by_cases hempty : nameFilter = []
        · exact Or.inl hempty
        · exact Or.inr (h1 hempty)
      · intro hmin
        exact h3 hmin
      · intro hmax
        exact h4 hmax
  · intro s projects hpd hne hfil
    simp [filterProject, hpd, hne, hfil]

/-- Witness of C3: the predicate characterisation at a concrete entry and
the no-matches message on a concrete non-empty registry. -/
theorem filter_conjunction_and_no_match_witness :
    (matchesFilter (str "zzz-nonexistent") 0 0 0 demoA = true ↔
      ((str "zzz-nonexistent" = ([] : Str) ∨
        goContains (lowerStr demoA.name) (lowerStr (str "zzz-nonexistent")) = true) ∧
       ((0 : Int) < 0 → truncQ demoA.bpm = 0) ∧
       ((0 : Int) < 0 → ((0 : Int) : ℚ) ≤ demoA.bpm) ∧
       ((0 : Int) < 0 → demoA.bpm ≤ ((0 : Int) : ℚ)))) ∧
    filterProject (.ok demoSettings) (some [demoA]) (str "zzz-nonexistent") 0 0 0 =
      .ok (.msg noMatchMsg) :=
  ⟨(filter_conjunction_and_no_match (str "zzz-nonexistent") 0 0 0).1 demoA,
   (filter_conjunction_and_no_match (str "zzz-nonexistent") 0 0 0).2 demoSettings
     [demoA] (by decide) (by decide) (by decide)⟩

/-- C9: the entries filter_project selects are a subset of the registry
entries list_projects draws from, restricted to the filter predicate; and
with no filters provided the selected pool is the whole registry, so the
returned entries coincide with those of list_projects. -/
theorem filter_subset_of_list
    (ps : List Project) (nameFilter : Str) (exactBPM minBPM maxBPM : Int) :
    (∀ p ∈ recentEntries (ps.filter (matchesFilter nameFilter exactBPM minBPM maxBPM)),
      p ∈ ps ∧ matchesFilter nameFilter exactBPM minBPM maxBPM p = true) ∧
    ps.filter (matchesFilter [] 0 0 0) = ps ∧
    recentEntries (ps.filter (matchesFilter [] 0 0 0)) = recentEntries ps := by
  have hall : ps.filter (matchesFilter [] 0 0 0) = ps := by
    apply List.filter_eq_self.mpr
    intro a _
    simp [matchesFilter]
  refine ⟨?_, hall, by rw [hall]⟩
  intro p hp
  have hm := mem_recentEntries hp
  exact ⟨(List.mem_filter.mp hm).1, (List.mem_filter.mp hm).2⟩

/-- Witness of C9: a concretely selected entry lies in the registry and
satisfies the predicate. -/
theorem filter_subset_of_list_witness :
    demoB ∈ [demoA, demoB] ∧ matchesFilter (str "bet") 0 0 0 demoB = true :=
  (filter_subset_of_list [demoA, demoB] (str "bet") 0 0 0).1 demoB (by decide)

/-- C4: evaluation of the rename-match scan on a registry where the first
entry merely contains the search string `rock` while the second equals it
case-insensitively.  The scan selects the first entry (index 0), which is
not a case-insensitive exact match, even though one exists at index 1:
the implementation takes the first linear-scan hit and applies no
exact-match priority. -/
theorem rename_match_no_exact_priority :
    findProjectToRename (str "rock") 0 c4Registry = some (0, c4First) ∧
    goEqualFold c4First.name (str "rock") = false ∧
    goEqualFold c4Second.name (str "rock") = true := by
  decide

/-- C5: when a matching registry entry is found and a folder with the new
name already exists at the target location, rename_project returns an
error and performs no filesystem mutation: the filesystem and the sidecar
content are returned unchanged. -/
theorem rename_existing_target_no_mutation
    (fs : List Str) (s : Settings) (projects : List Project)
    (oldName newName : Str) (idx : Nat) (proj : Project)
    (hpd : s.projectDir ≠ [])
    (hfind : findProjectToRename oldName 0 projects = some (idx, proj))
    (hex : pathJoin (pathDir (pathDir proj.path)) newName ∈ fs) :
    ∃ e, renameProject fs (.ok s) (some projects) oldName newName =
      ⟨fs, some projects, .error e⟩ := by
  by_cases h1 : oldName = []
  · exact ⟨str "old project name is required", by simp [renameProject, h1]⟩
  by_cases h2 : newName = []
  · exact ⟨str "new project name is required", by simp [renameProject, h1, h2]⟩
  by_cases h3 : containsForbidden newName
  · exact ⟨str "new project name contains invalid characters",
      by simp [renameProject, h1, h2, h3]⟩
  · exact ⟨str "a project folder with the new name already exists",
      by simp [renameProject, h1, h2, h3, hpd, hfind, hex]⟩

/-- Witness of C5: a concrete rename whose target folder `/music/new`
already exists leaves the filesystem and sidecar untouched. -/
theorem rename_existing_target_no_mutation_witness :
    (renameProject c5Fs (.ok demoSettings) (some [c5Proj])
        (str "old") (str "new")).fs = c5Fs ∧
    (renameProject c5Fs (.ok demoSettings) (some [c5Proj])
        (str "old") (str "new")).sidecar = some [c5Proj] := by
  obtain ⟨e, he⟩ := rename_existing_target_no_mutation c5Fs demoSettings [c5Proj]
    (str "old") (str "new") 0 c5Proj (by decide) (by decide) (by decide)
  constructor <;> rw [he]

/-- C6: create_project returns a validation error before performing any
I/O exactly when the name is empty, the name contains a forbidden
character, or bpm is nonzero and outside [30, 300]; otherwise validation
passes. -/
theorem create_validation_before_io (name : Str) (bpm : Int) :
    ((validateCreateProject name bpm).isSome ↔
      (name = [] ∨ containsForbidden name = true ∨
        (bpm ≠ 0 ∧ (bpm < 30 ∨ 300 < bpm)))) ∧
    (∀ env : CreateEnv,
      (name = [] ∨ containsForbidden name = true ∨
        (bpm ≠ 0 ∧ (bpm < 30 ∨ 300 < bpm))) →
      ∃ e, createProject env name bpm = ⟨[], .error e, none⟩) := by
  have hiff : (validateCreateProject name bpm).isSome ↔
      (name = [] ∨ containsForbidden name = true ∨
        (bpm ≠ 0 ∧ (bpm < 30 ∨ 300 < bpm))) := by
    simp only [validateCreateProject]
    split_ifs with h1 h2 h3 <;> simp_all
  refine ⟨hiff, ?_⟩
  intro env hbad
  have hv := hiff.mpr hbad
  rcases ho : validateCreateProject name bpm with _ | e
  · rw [ho] at hv
    simp at hv
  · exact ⟨e, by simp [createProject, ho]⟩

/-- Witness of C6: the empty name is rejected with no I/O effects. -/
theorem create_validation_before_io_witness :
    (validateCreateProject [] 0).isSome = true ∧
    (createProject demoEnv [] 0).effects = [] := by
  have h := create_validation_before_io [] 0
  refine ⟨h.1.mpr (Or.inl rfl), ?_⟩
  obtain ⟨e, he⟩ := h.2 demoEnv (Or.inl rfl)
  rw [he]

/-- C7: BPM extraction during scan examines at most the first 100 lines
with the first-TEMPO-line logic; when no TEMPO line appears within those
lines the extraction yields 0; when extraction fails (unparsable second
field) the scan records BPM 0 for that file and the file still enters the
collected registry rather than failing the whole scan. -/
theorem scan_bpm_bounded_and_total :
    (∀ lines : List Str,
      extractBPMFromRPP lines = extractBPMFromRPP (lines.take 100)) ∧
    (∀ lines : List Str, (∀ l ∈ lines.take 100, isTempoLine l = false) →
      extractBPMFromRPP lines = .ok 0) ∧
    (∀ (lines : List Str) (e : Str), extractBPMFromRPP lines = .error e →
      scanRecordBPM lines = 0) ∧
    (∀ (files : List ScanFile) (f : ScanFile) (e : Str), f ∈ files →
      lowerStr (pathExt f.path) = str ".rpp" →
      extractBPMFromRPP f.lines = .error e →
      ({ name := trimSuffix (pathBase f.path) (pathExt f.path), path := f.path,
         lastModified := f.modTime, size := f.size, bpm := 0 } : Project) ∈
        scanCollect files) := by
  have hrec : ∀ (lines : List Str) (e : Str), extractBPMFromRPP lines = .error e →
      scanRecordBPM lines = 0 := by
    intro lines e he
    simp [scanRecordBPM, he]
  refine ⟨?_, ?_, hrec, ?_⟩
  · intro lines
    have h := extractBPMAux_take lines 0
    simpa [extractBPMFromRPP] using h
  · intro lines h
    have h0 := extractBPMAux_of_no_tempo lines 0 (by simpa using h)
    simpa [extractBPMFromRPP] using h0
  · intro files f e hf hext herr
    apply List.mem_filterMap.mpr
    refine ⟨f, hf, ?_⟩
    rw [if_pos hext, hrec f.lines e herr]

/-- Witness of C7: a file whose TEMPO line has an unparsable second field
is recorded with BPM 0 and still collected. -/
theorem scan_bpm_bounded_and_total_witness :
    extractBPMFromRPP [str "  TEMPO abc 4 4"] =
      extractBPMFromRPP ([str "  TEMPO abc 4 4"].take 100) ∧
    extractBPMFromRPP [str "x", str "y"] = .ok 0 ∧
    scanRecordBPM [str "  TEMPO abc 4 4"] = 0 ∧
    ({ name := str "bad", path := str "/music/bad/bad.RPP",
       lastModified := 3, size := 9, bpm := 0 } : Project) ∈
      scanCollect [⟨str "/music/bad/bad.RPP", [str "  TEMPO abc 4 4"], 3, 9⟩] := by
  refine ⟨scan_bpm_bounded_and_total.1 [str "  TEMPO abc 4 4"],
    scan_bpm_bounded_and_total.2.1 [str "x", str "y"] (by decide),
    scan_bpm_bounded_and_total.2.2.1 [str "  TEMPO abc 4 4"]
      (str "failed to parse BPM value") (by rfl), ?_⟩
  have h := scan_bpm_bounded_and_total.2.2.2
    [⟨str "/music/bad/bad.RPP", [str "  TEMPO abc 4 4"], 3, 9⟩]
    ⟨str "/music/bad/bad.RPP", [str "  TEMPO abc 4 4"], 3, 9⟩
    (str "failed to parse BPM value") (by decide) (by decide) (by rfl)
  simpa using h

/-- C8: every operation that requires configuration returns the guidance
string with a nil error when the required setting is empty: list, filter,
scan and rename with an empty project_dir (rename after its input
validation), and create with an empty project_dir or template_dir. -/
theorem missing_config_guidance :
    (∀ (s : Settings) (sidecar : Option (List Project)), s.projectDir = [] →
      listProjects (.ok s) sidecar = .ok (.msg configureMsg)) ∧
    (∀ (s : Settings) (sidecar : Option (List Project)) (nf : Str)
        (e mn mx : Int), s.projectDir = [] →
      filterProject (.ok s) sidecar nf e mn mx = .ok (.msg configureMsg)) ∧
    (∀ (s : Settings) (dirExists : Bool), s.projectDir = [] →
      scanProjects (.ok s) dirExists = .ok configureMsg) ∧
    (∀ (fs : List Str) (s : Settings) (sidecar : Option (List Project))
        (oldName newName : Str), s.projectDir = [] →
      oldName ≠ [] → newName ≠ [] → containsForbidden newName = false →
      renameProject fs (.ok s) sidecar oldName newName =
        ⟨fs, sidecar, .ok configureMsg⟩) ∧
    (∀ (env : CreateEnv) (name : Str) (bpm : Int) (s : Settings),
      env.settingsR = .ok s → (s.projectDir = [] ∨ s.templateDir = []) →
      validateCreateProject name bpm = none →
      createProject env name bpm = ⟨[.loadSettings], .ok configureCreateMsg, none⟩) := by
  refine ⟨?_, ?_, ?_, ?_, ?_⟩
  · intro s sidecar hpd
    simp [listProjects, hpd]
  · intro s sidecar nf e mn mx hpd
    simp [filterProject, hpd]
  · intro s dirExists hpd
    simp [scanProjects, hpd]
  · intro fs s sidecar oldName newName hpd h1 h2 h3
    simp [renameProject, h1, h2, h3, hpd]
  · intro env name bpm s hs hempty hv
    simp [createProject, hv, hs, hempty]

/-- Witness of C8: all five operations at concrete unconfigured settings. -/
theorem missing_config_guidance_witness :
    listProjects (.ok demoUnconfigured) (some [demoA]) = .ok (.msg configureMsg) ∧
    filterProject (.ok demoUnconfigured) (some [demoA]) (str "a") 0 0 0 =
      .ok (.msg configureMsg) ∧
    scanProjects (.ok demoUnconfigured) true = .ok configureMsg ∧
    renameProject [] (.ok demoUnconfigured) (some [demoA]) (str "a") (str "b") =
      ⟨[], some [demoA], .ok configureMsg⟩ ∧
    createProject demoEnvUnconfigured (str "a") 0 =
      ⟨[.loadSettings], .ok configureCreateMsg, none⟩ := by
  have h := missing_config_guidance
  exact ⟨h.1 demoUnconfigured (some [demoA]) rfl,
    h.2.1 demoUnconfigured (some [demoA]) (str "a") 0 0 0 rfl,
    h.2.2.1 demoUnconfigured true rfl,
    h.2.2.2.1 [] demoUnconfigured (some [demoA]) (str "a") (str "b") rfl
      (by decide) (by decide) (by decide),
    h.2.2.2.2 demoEnvUnconfigured (str "a") 0 demoUnconfigured rfl
      (Or.inl rfl) (by decide)⟩

/-- C10: create_project treats bpm = 0 as not provided: it passes
validation although 0 lies outside [30, 300], no TEMPO patch is applied so
the created file is a byte-for-byte copy of the template, and the
confirmation message carries no BPM suffix. -/
theorem create_bpm_zero_means_unset
    (env : CreateEnv) (name : Str) (s : Settings) (data : Str) :
    name ≠ [] → containsForbidden name = false →
    env.settingsR = .ok s → s.projectDir ≠ [] → s.templateDir ≠ [] →
    env.template = some data →
    validateCreateProject name 0 = none ∧
    (createProject env name 0).written = some data ∧
    (createProject env name 0).result =
      .ok (createMsg (pathJoin (pathJoin s.projectDir name) (name ++ str ".RPP"))) := by
  intro h1 h2 hs hpd htd ht
  have hv : validateCreateProject name 0 = none := by
    simp [validateCreateProject, h1, h2]
  refine ⟨hv, ?_, ?_⟩ <;> simp [createProject, hv, hs, ht, hpd, htd]

/-- Witness of C10 on the demonstration environment whose template holds
a TEMPO line. -/
theorem create_bpm_zero_means_unset_witness :
    validateCreateProject (str "song") 0 = none ∧
    (createProject demoEnv (str "song") 0).written = some demoTemplate ∧
    (createProject demoEnv (str "song") 0).result =
      .ok (createMsg (pathJoin (pathJoin demoSettings.projectDir (str "song"))
        (str "song" ++ str ".RPP"))) :=
  create_bpm_zero_means_unset demoEnv (str "song") demoSettings demoTemplate
    (by decide) (by decide) rfl (by decide) (by decide) rfl

end MPM
